import Mathlib

/-!
# Verification of the financeproj workflow subsystem

A shallow embedding of the workflow-automation data model of the
`financeproj` repository (SQLAlchemy models in `src/src/models/workflow.py`,
`src/src/models/transaction.py`, configuration in `src/config/config.py`),
together with a model of the workflow graph validator / execution recorder
that the specification describes (that engine is not present in the given
source; definitions taken from the specification alone carry a doc comment
starting with `Modelled from the spec:`).

Conventions of the embedding:
* JSON blob columns that no property inspects structurally
  (`configuration`, `config`, `trigger_config`, `trigger_details`,
  `input_data`, `output_data`) are carried as their serialized text
  (`String`); JSON columns that are structurally lists of node ids
  (`input_connections`, `output_connections`, `tags`, `attachments`) are
  `List String`; the `node_executions` JSON map is an association list
  `List (String × String)` from node id to serialized per-node record.
* timestamps (`DateTime`) are integer epochs (`Int`); the `Numeric(12,2)`
  amount is an integer number of cents.
* a column default supplied by the database layer (`uuid4` for primary
  keys) is passed explicitly as a `genId` argument to the row constructors.
-/

namespace FinProj

/-- Node kinds, from `WorkflowNodeType` / `WorkflowNodeTypeEnum`
(`config/config.py`, `src/models/workflow.py`). -/
inductive WorkflowNodeTypeEnum where
  | source
  | destination
  | condition
  | action
  | schedule
  | split
  | merge
deriving DecidableEq, Repr

/-- Workflow lifecycle statuses, from `WorkflowStatus` / `WorkflowStatusEnum`. -/
inductive WorkflowStatusEnum where
  | draft
  | active
  | paused
  | archived
deriving DecidableEq, Repr

/-- Transaction kinds, from `TransactionType` / `TransactionTypeEnum`. -/
inductive TransactionTypeEnum where
  | debit
  | credit
  | transfer
deriving DecidableEq, Repr

/-- Inter-entity transfer kinds, from `InterEntityTransferTypeEnum`. -/
inductive InterEntityTransferTypeEnum where
  | equity_contribution
  | owner_draw
  | distribution
  | loan_to_entity
  | loan_from_entity
  | expense_reimbursement
deriving DecidableEq, Repr

/-- The workflow-relevant fields of `Settings` (`config/config.py`), with the
pydantic field defaults of the source.  The remaining fields (database,
Plaid, SMTP, ... settings) are irrelevant to every property below and are
omitted from the embedding. -/
structure Settings where
  MAX_WORKFLOW_NODES : Nat := 100
  WORKFLOW_EXECUTION_TIMEOUT : Nat := 300
deriving DecidableEq, Repr

/-- `Settings()` constructed with no environment overrides. -/
def defaultSettings : Settings := {}

/-- The process-wide `functools.lru_cache` state of `get_settings`:
either no cached value yet, or the `Settings` built by the first call. -/
structure SettingsCache where
  cached : Option Settings
deriving DecidableEq, Repr

/-- Cache state at process start: nothing cached. -/
def initialCache : SettingsCache := ⟨none⟩

/-- `get_settings` (`config/config.py`): under `@lru_cache()`, a call
returns the cached instance when present; otherwise it constructs a fresh
`Settings` (the `fresh` argument stands for the value `Settings()` would
build at that call, which may depend on the environment at call time) and
caches it. -/
def get_settings (fresh : Settings) (st : SettingsCache) : Settings × SettingsCache :=
  match st.cached with
  | some s => (s, st)
  | none => (fresh, ⟨some fresh⟩)

/-- Run a sequence of `get_settings` calls, each with the `Settings` value
it would freshly construct, threading the cache; returns the list of
returned values. -/
def runCalls (st : SettingsCache) : List Settings → List Settings
  | [] => []
  | f :: fs =>
    let r := get_settings f st
    r.1 :: runCalls r.2 fs

/-- Schema metadata of one column: its name, whether it is nullable, and
whether it has a creation-time default (a python-side `default=`, or a
`server_default`). -/
structure ColumnSpec where
  name : String
  nullable : Bool
  hasDefault : Bool
deriving DecidableEq, Repr

/-- `TimestampMixin` (`src/models/base.py`): `created_at` and `updated_at`,
non-nullable with `server_default=func.now()`. -/
def timestampMixinColumns : List ColumnSpec :=
  [⟨"created_at", false, true⟩, ⟨"updated_at", false, true⟩]

/-- Columns of the `workflows` table (`Workflow` in
`src/models/workflow.py`), in source order. -/
def workflowColumns : List ColumnSpec :=
  [⟨"id", false, true⟩,
   ⟨"name", false, false⟩,
   ⟨"description", true, false⟩,
   ⟨"owner_id", false, false⟩,
   ⟨"status", true, true⟩,
   ⟨"configuration", false, false⟩,
   ⟨"trigger_type", true, false⟩,
   ⟨"trigger_config", true, false⟩,
   ⟨"max_retries", true, true⟩,
   ⟨"timeout_seconds", true, true⟩,
   ⟨"version", true, true⟩,
   ⟨"is_template", true, true⟩,
   ⟨"template_category", true, false⟩,
   ⟨"execution_count", true, true⟩,
   ⟨"last_executed_at", true, false⟩] ++ timestampMixinColumns

/-- Columns of the `workflow_executions` table (`WorkflowExecution` in
`src/models/workflow.py`), in source order. -/
def workflowExecutionColumns : List ColumnSpec :=
  [⟨"id", false, true⟩,
   ⟨"workflow_id", false, false⟩,
   ⟨"started_at", false, false⟩,
   ⟨"completed_at", true, false⟩,
   ⟨"status", false, false⟩,
   ⟨"error_message", true, false⟩,
   ⟨"triggered_by", true, false⟩,
   ⟨"trigger_details", true, false⟩,
   ⟨"input_data", true, false⟩,
   ⟨"output_data", true, false⟩,
   ⟨"node_executions", true, true⟩,
   ⟨"total_duration_ms", true, false⟩] ++ timestampMixinColumns

/-- The columns a caller must supply at row creation: non-nullable and
without any default. -/
def requiredAtCreation (cols : List ColumnSpec) : List String :=
  (cols.filter (fun c => !c.nullable && !c.hasDefault)).map (fun c => c.name)

/-- Row of the `workflows` table (`Workflow`). -/
structure Workflow where
  id : String
  name : String
  description : Option String
  owner_id : String
  status : WorkflowStatusEnum
  configuration : String
  trigger_type : Option String
  trigger_config : Option String
  max_retries : Int
  timeout_seconds : Int
  version : Int
  is_template : Bool
  template_category : Option String
  execution_count : Int
  last_executed_at : Option Int
deriving DecidableEq, Repr

/-- Creating a `Workflow` row supplying only the required columns
(`name`, `owner_id`, `configuration`; `genId` stands for the `uuid4`
primary-key default): every other column takes its source default
(`status=DRAFT`, `max_retries=3`, `timeout_seconds=300`, `version=1`,
`is_template=False`, `execution_count=0`, nullable columns NULL). -/
def mkWorkflow (genId name owner_id configuration : String) : Workflow :=
  { id := genId
    name := name
    description := none
    owner_id := owner_id
    status := .draft
    configuration := configuration
    trigger_type := none
    trigger_config := none
    max_retries := 3
    timeout_seconds := 300
    version := 1
    is_template := false
    template_category := none
    execution_count := 0
    last_executed_at := none }

/-- Row of the `workflow_nodes` table (`WorkflowNode`). -/
structure WorkflowNode where
  id : String
  workflow_id : String
  node_type : WorkflowNodeTypeEnum
  name : String
  position_x : Int
  position_y : Int
  config : String
  input_connections : List String
  output_connections : List String
  execution_order : Option Int
deriving DecidableEq, Repr

/-- Row of the `workflow_executions` table (`WorkflowExecution`).
`status` is a plain string column in the source
(`'running'`, `'completed'`, `'failed'`, `'cancelled'`). -/
structure WorkflowExecution where
  id : String
  workflow_id : String
  started_at : Int
  completed_at : Option Int
  status : String
  error_message : Option String
  triggered_by : Option String
  trigger_details : Option String
  input_data : Option String
  output_data : Option String
  node_executions : List (String × String)
  total_duration_ms : Option Int
deriving DecidableEq, Repr

/-- Creating a `WorkflowExecution` row supplying only the required columns
(`workflow_id`, `started_at`, `status`; `genId` stands for the `uuid4`
primary-key default): `node_executions` defaults to the empty dict and
every nullable column to NULL. -/
def mkWorkflowExecution (genId workflow_id : String) (started_at : Int)
    (status : String) : WorkflowExecution :=
  { id := genId
    workflow_id := workflow_id
    started_at := started_at
    completed_at := none
    status := status
    error_message := none
    triggered_by := none
    trigger_details := none
    input_data := none
    output_data := none
    node_executions := []
    total_duration_ms := none }

/-- Row of the `transactions` table (`Transaction` in
`src/models/transaction.py`).  `workflow_execution_id` is a nullable plain
foreign key ("workflow tracking"): no cascade is declared on it. -/
structure Transaction where
  id : String
  entity_id : String
  account_id : String
  transaction_type : TransactionTypeEnum
  amount : Int
  transaction_date : Int
  posted_date : Option Int
  description : String
  merchant_name : Option String
  category : Option String
  subcategory : Option String
  tags : List String
  is_inter_entity : Bool
  inter_entity_type : Option InterEntityTransferTypeEnum
  related_transaction_id : Option String
  related_entity_id : Option String
  workflow_execution_id : Option String
  plaid_transaction_id : Option String
  bank_reference : Option String
  check_number : Option String
  is_pending : Bool
  is_reconciled : Bool
  is_recurring : Bool
  notes : Option String
  attachments : List String
  imported_at : Option Int
  import_source : Option String
deriving DecidableEq, Repr

/-- The tables of the store that the workflow claims touch. -/
structure Database where
  workflows : List Workflow
  workflow_nodes : List WorkflowNode
  workflow_executions : List WorkflowExecution
  transactions : List Transaction
deriving DecidableEq, Repr

/-- Deleting a `Workflow` row.  The relationships
`Workflow.nodes` and `Workflow.executions` are declared
`cascade="all, delete-orphan"` in the source, so the workflow's
`WorkflowNode` and `WorkflowExecution` rows are deleted with it; the
`WorkflowExecution.transactions` relationship declares no delete cascade,
so `transactions` rows are not deleted. -/
def deleteWorkflow (wid : String) (db : Database) : Database :=
  { workflows := db.workflows.filter (fun w => w.id != wid)
    workflow_nodes := db.workflow_nodes.filter (fun n => n.workflow_id != wid)
    workflow_executions := db.workflow_executions.filter (fun e => e.workflow_id != wid)
    transactions := db.transactions }

/-- Deleting a `WorkflowExecution` row.  Its `transactions` relationship
declares no delete cascade, so `transactions` rows are untouched. -/
def deleteWorkflowExecution (eid : String) (db : Database) : Database :=
  { db with
    workflow_executions := db.workflow_executions.filter (fun e => e.id != eid) }

/-- The terminal execution statuses of `WorkflowExecution.status`
(`'completed'`, `'failed'`, `'cancelled'`); `'running'` is the only
non-terminal one. -/
def terminalStatuses : List String := ["completed", "failed", "cancelled"]

/-- Whether an execution status string is terminal. -/
def isTerminal (s : String) : Bool := terminalStatuses.contains s

/-- Modelled from the spec: the run-level state machine of §4.4,
`running → (completed | failed | cancelled)` — the three ways a run can
end (no executor exists in the given source). -/
inductive RunOutcome where
  | completed
  | failed
  | cancelled
deriving DecidableEq, Repr

/-- The status string recorded for a run outcome. -/
def RunOutcome.toStatus : RunOutcome → String
  | .completed => "completed"
  | .failed => "failed"
  | .cancelled => "cancelled"

/-- Modelled from the spec: §4.3 step 3 — the scheduler creates a new
`WorkflowExecution` row in `running` state (no scheduler exists in the
given source).  Trigger provenance and input payload are recorded;
everything else starts from the row defaults. -/
def startExecution (genId workflow_id : String) (started_at : Int)
    (triggered_by : String) (trigger_details input_data : Option String) :
    WorkflowExecution :=
  { mkWorkflowExecution genId workflow_id started_at "running" with
    triggered_by := some triggered_by
    trigger_details := trigger_details
    input_data := input_data }

/-- Modelled from the spec: §4.5 — the Execution Recorder's two writes
against a `WorkflowExecution` row (no recorder exists in the given
source): update the node-execution map as a node completes, and, on run
completion, set `completed_at`, `total_duration_ms` and the final
(terminal) status together with output payload / error message. -/
inductive RecorderOp where
  | recordNode (nodeId details : String)
  | completeRun (outcome : RunOutcome) (completedAt durationMs : Int)
      (output err : Option String)

/-- Apply one recorder write to an execution row. -/
def applyOp (e : WorkflowExecution) : RecorderOp → WorkflowExecution
  | .recordNode nid d =>
      { e with
        node_executions := (nid, d) :: e.node_executions.filter (fun p => p.1 != nid) }
  | .completeRun o t dur out err =>
      { e with
        status := o.toStatus
        completed_at := some t
        total_duration_ms := some dur
        output_data := out
        error_message := err }

/-- Apply a sequence of recorder writes, oldest first. -/
def applyOps (e : WorkflowExecution) (ops : List RecorderOp) : WorkflowExecution :=
  ops.foldl applyOp e

/-- The ids of a node list, in order. -/
def nodeIds (ns : List WorkflowNode) : List String := ns.map (fun n => n.id)

/-- Modelled from the spec: the directed-edge relation of the Graph Model
(§4.1, §9) — edges are the adjacency lists `output_connections` stored on
each node, and construction rejects an edge whose target is not a node of
the workflow, so only edges between existing nodes count. -/
def hasEdgeB (ns : List WorkflowNode) (u v : String) : Bool :=
  (nodeIds ns).contains v &&
    ns.any (fun n => n.id == u && n.output_connections.contains v)

/-- Propositional form of `hasEdgeB`. -/
def edgeRel (ns : List WorkflowNode) (u v : String) : Prop :=
  hasEdgeB ns u v = true

instance (ns : List WorkflowNode) (u v : String) : Decidable (edgeRel ns u v) :=
  inferInstanceAs (Decidable (hasEdgeB ns u v = true))

/-- A graph is acyclic when no node lies on a nonempty directed path back
to itself. -/
def Acyclic (ns : List WorkflowNode) : Prop :=
  ∀ u, ¬ Relation.TransGen (edgeRel ns) u u

/-- `ord` is a topological order of the graph: it lists each node id
exactly once and places the source of every edge strictly before its
target. -/
def IsTopoOrder (ns : List WorkflowNode) (ord : List String) : Prop :=
  ord.Nodup ∧ (∀ x, x ∈ ord ↔ x ∈ nodeIds ns) ∧
    ∀ u v, edgeRel ns u v → ord.indexOf u < ord.indexOf v

/-- Whether `v` has an inbound edge from some id in `remaining`. -/
def hasIncomingFrom (ns : List WorkflowNode) (remaining : List String)
    (v : String) : Bool :=
  remaining.any (fun u => hasEdgeB ns u v)

/-- One round of Kahn-style elimination: drop every id with no inbound
edge from the remaining set. -/
def elimStep (ns : List WorkflowNode) (remaining : List String) : List String :=
  remaining.filter (fun v => hasIncomingFrom ns remaining v)

/-- Modelled from the spec: the Validator's acyclicity check (§4.2) as
Kahn-style elimination to a fixpoint — repeatedly drop ids without
inbound edges; a cycle is exactly a nonempty fixpoint.  Fuelled so that
the recursion is structural; each round that recurses strictly shrinks
the remaining list, so `remaining.length` rounds always reach the
fixpoint. -/
def elimLoop (ns : List WorkflowNode) : Nat → List String → List String
  | 0, remaining => remaining
  | fuel + 1, remaining =>
    let r := elimStep ns remaining
    if r.length < remaining.length then elimLoop ns fuel r else remaining

/-- The elimination fixpoint of the graph, starting from all node ids. -/
def elimAux (ns : List WorkflowNode) (remaining : List String) : List String :=
  elimLoop ns remaining.length remaining

/-- Executable acyclicity: the elimination fixpoint is empty. -/
def isAcyclicB (ns : List WorkflowNode) : Bool :=
  (elimAux ns (nodeIds ns)).isEmpty

/-- The ids of the `source`-kind nodes. -/
def sourceIds (ns : List WorkflowNode) : List String :=
  (ns.filter (fun n => n.node_type == .source)).map (fun n => n.id)

/-- One round of forward closure from an id set along edges. -/
def reachStep (ns : List WorkflowNode) (acc : List String) : List String :=
  acc ++ (nodeIds ns).filter
    (fun v => !acc.contains v && acc.any (fun u => hasEdgeB ns u v))

/-- Ids reachable from the `source` nodes (closure stabilizes within
`ns.length` rounds). -/
def reachableSet (ns : List WorkflowNode) : List String :=
  (reachStep ns)^[ns.length] (sourceIds ns)

/-- Modelled from the spec: §4.2 reachability check — every node is
reachable from at least one `source` node. -/
def allReachable (ns : List WorkflowNode) : Bool :=
  (nodeIds ns).all (fun v => (reachableSet ns).contains v)

/-- Modelled from the spec: §4.2 dead-end check — every
non-`destination` node has at least one outbound edge. -/
def noDeadEnds (ns : List WorkflowNode) : Bool :=
  ns.all (fun n => n.node_type == .destination || !n.output_connections.isEmpty)

/-- Modelled from the spec: the per-kind cardinality constraints of §3 —
`source`: no inbound, ≥1 outbound; `destination`: no outbound; `split`:
exactly one inbound, ≥2 outbound; `merge`: ≥2 inbound, exactly one
outbound; `condition`, `action` and `schedule` nodes are unconstrained
here. -/
def cardinalityOkNode (n : WorkflowNode) : Bool :=
  match n.node_type with
  | .source => n.input_connections.isEmpty && decide (1 ≤ n.output_connections.length)
  | .destination => n.output_connections.isEmpty
  | .split =>
      decide (n.input_connections.length = 1) && decide (2 ≤ n.output_connections.length)
  | .merge =>
      decide (2 ≤ n.input_connections.length) && decide (n.output_connections.length = 1)
  | _ => true

/-- Every node of the graph passes its kind's cardinality constraint. -/
def cardinalityAllOk (ns : List WorkflowNode) : Bool :=
  ns.all cardinalityOkNode

/-- Modelled from the spec: the distinct failure reasons of the Validator
(§4.2 / §7). -/
inductive ValidationError where
  | TooManyNodesError
  | CyclicGraphError
  | UnreachableNodeError
  | DeadEndError
  | InvalidTopologyError
deriving DecidableEq, Repr

/-- Modelled from the spec: `validate(graph)` (§4.2), taking the
aggregated-list option — the checks run in the stated order and every
violated check contributes its error. -/
def validationErrors (s : Settings) (ns : List WorkflowNode) :
    List ValidationError :=
  (if ns.length ≤ s.MAX_WORKFLOW_NODES then [] else [.TooManyNodesError]) ++
  (if isAcyclicB ns then [] else [.CyclicGraphError]) ++
  (if allReachable ns then [] else [.UnreachableNodeError]) ++
  (if noDeadEnds ns then [] else [.DeadEndError]) ++
  (if cardinalityAllOk ns then [] else [.InvalidTopologyError])

/-- Modelled from the spec: activation (§4.2) — a workflow transitions to
`active` only if its graph validates; otherwise activation fails with the
violation list and the workflow row is left unchanged. -/
def activate (w : Workflow) (ns : List WorkflowNode) (s : Settings) :
    Option (List ValidationError) × Workflow :=
  let errs := validationErrors s ns
  if errs.isEmpty then (none, { w with status := .active }) else (some errs, w)

/-- Convenience constructor for a graph node at the editor origin with
empty config. -/
def mkNode (i wid : String) (t : WorkflowNodeTypeEnum)
    (ins outs : List String) : WorkflowNode :=
  { id := i
    workflow_id := wid
    node_type := t
    name := i
    position_x := 0
    position_y := 0
    config := ""
    input_connections := ins
    output_connections := outs
    execution_order := none }

/-- A sample transaction produced by execution `e1`. -/
def sampleTxn : Transaction :=
  { id := "t1"
    entity_id := "ent1"
    account_id := "acc1"
    transaction_type := .debit
    amount := 500
    transaction_date := 10
    posted_date := none
    description := "groceries"
    merchant_name := none
    category := none
    subcategory := none
    tags := []
    is_inter_entity := false
    inter_entity_type := none
    related_transaction_id := none
    related_entity_id := none
    workflow_execution_id := some "e1"
    plaid_transaction_id := none
    bank_reference := none
    check_number := none
    is_pending := false
    is_reconciled := false
    is_recurring := false
    notes := none
    attachments := []
    imported_at := none
    import_source := none }

/-- A sample store with two workflows, their nodes and executions, and one
transaction created by an execution of the first workflow. -/
def sampleDb : Database :=
  { workflows := [mkWorkflow "w1" "alpha" "u1" "cfg1", mkWorkflow "w2" "beta" "u1" "cfg2"]
    workflow_nodes :=
      [mkNode "n1" "w1" .source [] ["n2"],
       mkNode "n2" "w1" .destination ["n1"] [],
       mkNode "n3" "w2" .source [] ["n4"],
       mkNode "n4" "w2" .destination ["n3"] []]
    workflow_executions :=
      [mkWorkflowExecution "e1" "w1" 0 "running",
       mkWorkflowExecution "e2" "w2" 0 "completed"]
    transactions := [sampleTxn] }

/-- A two-node valid graph: one `source` feeding one `destination`. -/
def sampleGraph : List WorkflowNode :=
  [mkNode "n1" "w1" .source [] ["n2"],
   mkNode "n2" "w1" .destination ["n1"] []]

/-- A two-node graph with a directed cycle `a → b → a`. -/
def sampleCycle : List WorkflowNode :=
  [mkNode "a" "w1" .action ["b"] ["b"],
   mkNode "b" "w1" .action ["a"] ["a"]]

/-- The completion-timestamp invariant of a `WorkflowExecution` row:
`completed_at` is set exactly when the status is terminal. -/
def completedIffTerminal (e : WorkflowExecution) : Prop :=
  e.completed_at.isSome = isTerminal e.status

/-- Auxiliary for C10: once the cache holds `s`, every later call returns
`s`, whatever `Settings` values those calls would freshly construct. -/
theorem runCalls_cached (s : Settings) (fs : List Settings) :
    runCalls ⟨some s⟩ fs = List.replicate fs.length s := by
  induction fs with
  | nil => rfl
  | cons f fs ih => simp [runCalls, get_settings, ih, List.replicate_succ]

/-- C10: `get_settings` is a cached singleton accessor — starting from the
process-initial cache, a sequence of calls (whatever `Settings` each would
freshly construct) returns the first call's value every time. -/
theorem c10_get_settings_singleton (f : Settings) (fs : List Settings) :
    runCalls initialCache (f :: fs) = List.replicate (fs.length + 1) f := by
  simp [runCalls, get_settings, initialCache, List.replicate_succ,
    runCalls_cached]

/-- C8: a freshly created `Workflow` with optional columns left
unspecified has status `draft`, version 1, `max_retries` 3 and
`timeout_seconds` 300 — the same value as the configured
`WORKFLOW_EXECUTION_TIMEOUT` default. -/
theorem c8_workflow_defaults (genId name owner_id configuration : String) :
    (mkWorkflow genId name owner_id configuration).status = .draft ∧
    (mkWorkflow genId name owner_id configuration).version = 1 ∧
    (mkWorkflow genId name owner_id configuration).max_retries = 3 ∧
    (mkWorkflow genId name owner_id configuration).timeout_seconds = 300 ∧
    (mkWorkflow genId name owner_id configuration).timeout_seconds =
      (defaultSettings.WORKFLOW_EXECUTION_TIMEOUT : Int) :=
  ⟨rfl, rfl, rfl, rfl, rfl⟩

/-- C9 counterexample: it is not the case that only `started_at` and
`status` must be supplied when creating a `WorkflowExecution` —
`workflow_id` is also non-nullable with no default. -/
theorem c9_counterexample :
    ¬ (∀ c ∈ requiredAtCreation workflowExecutionColumns,
        c = "started_at" ∨ c = "status") := by
  decide

/-- C9 (amended): a newly created `WorkflowExecution` with optional
columns left unspecified starts with an empty `node_executions` map, no
`completed_at`, no `total_duration_ms`, no `output_data` and no
`error_message`; the columns that must be supplied at creation are exactly
`workflow_id`, `started_at` and `status`. -/
theorem c9_execution_defaults (genId workflow_id : String)
    (started_at : Int) (status : String) :
    (mkWorkflowExecution genId workflow_id started_at status).node_executions = [] ∧
    (mkWorkflowExecution genId workflow_id started_at status).completed_at = none ∧
    (mkWorkflowExecution genId workflow_id started_at status).total_duration_ms = none ∧
    (mkWorkflowExecution genId workflow_id started_at status).output_data = none ∧
    (mkWorkflowExecution genId workflow_id started_at status).error_message = none ∧
    requiredAtCreation workflowExecutionColumns =
      ["workflow_id", "started_at", "status"] :=
  ⟨rfl, rfl, rfl, rfl, rfl, by decide⟩

/-- C2 counterexample: the `workflow_executions` table has no column
recording the workflow version the run pinned — neither `version` nor
`workflow_version` appears among its columns. -/
theorem c2_counterexample :
    ¬ (∃ c ∈ workflowExecutionColumns,
        c.name = "version" ∨ c.name = "workflow_version") := by
  decide

/-- C2 (amended): a `WorkflowExecution` record carries a workflow
reference (`workflow_id`) but no workflow-version pin; the version number
is stored only on the `workflows` table, so an executor can only consume
the workflow's current graph, not a version pinned by the execution
record. -/
theorem c2_no_version_pin :
    "workflow_id" ∈ workflowExecutionColumns.map ColumnSpec.name ∧
    "version" ∉ workflowExecutionColumns.map ColumnSpec.name ∧
    "workflow_version" ∉ workflowExecutionColumns.map ColumnSpec.name ∧
    "version" ∈ workflowColumns.map ColumnSpec.name := by
  decide

/-- C5: deleting a `Workflow` cascades to exactly its own nodes and
executions — afterwards a node or execution row is present exactly when it
was present before and belongs to a different workflow. -/
theorem c5_cascade_delete (db : Database) (wid : String) :
    (∀ n, n ∈ (deleteWorkflow wid db).workflow_nodes ↔
      (n ∈ db.workflow_nodes ∧ n.workflow_id ≠ wid)) ∧
    (∀ e, e ∈ (deleteWorkflow wid db).workflow_executions ↔
      (e ∈ db.workflow_executions ∧ e.workflow_id ≠ wid)) := by
  constructor <;> intro r <;>
    simp [deleteWorkflow, List.mem_filter, bne_iff_ne]

/-- C5 witness: in the sample store, deleting workflow `w1` removes its
node `n1` and its execution `e1` while workflow `w2` keeps node `n3` and
execution `e2`. -/
theorem c5_cascade_delete_witness :
    mkNode "n1" "w1" .source [] ["n2"] ∉ (deleteWorkflow "w1" sampleDb).workflow_nodes ∧
    mkNode "n3" "w2" .source [] ["n4"] ∈ (deleteWorkflow "w1" sampleDb).workflow_nodes ∧
    mkWorkflowExecution "e1" "w1" 0 "running" ∉ (deleteWorkflow "w1" sampleDb).workflow_executions ∧
    mkWorkflowExecution "e2" "w2" 0 "completed" ∈ (deleteWorkflow "w1" sampleDb).workflow_executions :=
  ⟨fun h => absurd ((((c5_cascade_delete sampleDb "w1").1 _).mp h).2) (by decide),
   ((c5_cascade_delete sampleDb "w1").1 _).mpr ⟨by decide, by decide⟩,
   fun h => absurd ((((c5_cascade_delete sampleDb "w1").2 _).mp h).2) (by decide),
   ((c5_cascade_delete sampleDb "w1").2 _).mpr ⟨by decide, by decide⟩⟩

/-- C6: a `Transaction` only weakly references its creating execution —
deleting a `WorkflowExecution` (which really removes the execution row),
or deleting its owning `Workflow`, leaves the `transactions` table exactly
as it was; in particular every transaction that referenced the deleted
execution still exists, unchanged. -/
theorem c6_transactions_survive (db : Database) (eid wid : String) :
    (deleteWorkflowExecution eid db).transactions = db.transactions ∧
    (deleteWorkflow wid db).transactions = db.transactions ∧
    (∀ e, e ∈ (deleteWorkflowExecution eid db).workflow_executions ↔
      (e ∈ db.workflow_executions ∧ e.id ≠ eid)) ∧
    (∀ t, t ∈ db.transactions → t.workflow_execution_id = some eid →
      t ∈ (deleteWorkflowExecution eid db).transactions) ∧
    (∀ t, t ∈ db.transactions → t ∈ (deleteWorkflow wid db).transactions) := by
  refine ⟨rfl, rfl, ?_, fun t ht _ => ht, fun t ht => ht⟩
  intro e
  simp [deleteWorkflowExecution, List.mem_filter, bne_iff_ne]

/-- C6 witness: in the sample store, deleting execution `e1` removes the
execution row but the transaction `t1` it created survives unchanged. -/
theorem c6_transactions_survive_witness :
    mkWorkflowExecution "e1" "w1" 0 "running" ∉ (deleteWorkflowExecution "e1" sampleDb).workflow_executions ∧
    sampleTxn ∈ (deleteWorkflowExecution "e1" sampleDb).transactions ∧
    sampleTxn ∈ (deleteWorkflow "w1" sampleDb).transactions :=
  ⟨fun h => absurd ((((c6_transactions_survive sampleDb "e1" "w1").2.2.1 _).mp h).2) (by decide),
   (c6_transactions_survive sampleDb "e1" "w1").2.2.2.1 sampleTxn (by decide) (by decide),
   (c6_transactions_survive sampleDb "e1" "w1").2.2.2.2 sampleTxn (by decide)⟩

/-- Auxiliary for C1: every recorder write preserves the
completion-timestamp invariant. -/
theorem applyOp_completedIffTerminal (e : WorkflowExecution) (op : RecorderOp)
    (h : completedIffTerminal e) : completedIffTerminal (applyOp e op) := by
  cases op with
  | recordNode nid d => simpa [completedIffTerminal, applyOp] using h
  | completeRun o t dur out err =>
    cases o <;> simp [completedIffTerminal, applyOp, RunOutcome.toStatus, isTerminal,
      terminalStatuses]

/-- Auxiliary for C1: recorder write sequences preserve the
completion-timestamp invariant. -/
theorem applyOps_completedIffTerminal (ops : List RecorderOp)
    (e : WorkflowExecution) (h : completedIffTerminal e) :
    completedIffTerminal (applyOps e ops) := by
  induction ops generalizing e with
  | nil => simpa [applyOps] using h
  | cons op ops ih =>
    have := applyOp_completedIffTerminal e op h
    simpa [applyOps] using ih (applyOp e op) (by simpa [applyOps] using this)

/-- C1: an execution created by the scheduler starts `running` with no
`completed_at`, and after any sequence of recorder writes `completed_at`
is set exactly when the status is terminal (`completed`, `failed` or
`cancelled`). -/
theorem c1_completed_iff_terminal (genId workflow_id : String)
    (started_at : Int) (triggered_by : String)
    (trigger_details input_data : Option String) (ops : List RecorderOp) :
    (startExecution genId workflow_id started_at triggered_by trigger_details
      input_data).status = "running" ∧
    (startExecution genId workflow_id started_at triggered_by trigger_details
      input_data).completed_at = none ∧
    isTerminal "running" = false ∧
    (applyOps (startExecution genId workflow_id started_at triggered_by
        trigger_details input_data) ops).completed_at.isSome =
      isTerminal (applyOps (startExecution genId workflow_id started_at
        triggered_by trigger_details input_data) ops).status := by
  refine ⟨rfl, rfl, by decide, ?_⟩
  exact applyOps_completedIffTerminal ops _ rfl

/-- C1 witness: a concrete run — created running without `completed_at`,
then completed by the recorder, whereupon `completed_at` is set and the
status terminal. -/
theorem c1_completed_iff_terminal_witness :
    (applyOps (startExecution "e9" "w1" 5 "manual" none none)
      [.recordNode "n1" "ok", .completeRun .completed 9 4 (some "out") none]).completed_at.isSome =
    isTerminal (applyOps (startExecution "e9" "w1" 5 "manual" none none)
      [.recordNode "n1" "ok", .completeRun .completed 9 4 (some "out") none]).status :=
  (c1_completed_iff_terminal "e9" "w1" 5 "manual" none none
    [.recordNode "n1" "ok", .completeRun .completed 9 4 (some "out") none]).2.2.2

/-- Auxiliary for C3/C4: a validation pass forces every individual check
to pass. -/
theorem cardinalityAllOk_of_validationErrors_nil (s : Settings)
    (ns : List WorkflowNode) (h : validationErrors s ns = []) :
    cardinalityAllOk ns = true := by
  cases hc : cardinalityAllOk ns with
  | true => rfl
  | false => simp [validationErrors, hc] at h

/-- C3: in a graph that passes validation, every node satisfies its
kind's cardinality constraint — a `source` node has no inbound and at
least one outbound edge, a `destination` node has no outbound edge, a
`split` node has exactly one inbound and at least two outbound edges, and
a `merge` node has at least two inbound and exactly one outbound edge. -/
theorem c3_cardinality_invariant (s : Settings) (ns : List WorkflowNode)
    (h : validationErrors s ns = []) :
    ∀ n ∈ ns,
      (n.node_type = .source →
        n.input_connections = [] ∧ 1 ≤ n.output_connections.length) ∧
      (n.node_type = .destination → n.output_connections = []) ∧
      (n.node_type = .split →
        n.input_connections.length = 1 ∧ 2 ≤ n.output_connections.length) ∧
      (n.node_type = .merge →
        2 ≤ n.input_connections.length ∧ n.output_connections.length = 1) := by
  intro n hn
  have hall := cardinalityAllOk_of_validationErrors_nil s ns h
  rw [cardinalityAllOk, List.all_eq_true] at hall
  have hok := hall n hn
  refine ⟨?_, ?_, ?_, ?_⟩ <;> intro ht <;>
    simpa [cardinalityOkNode, ht, List.isEmpty_iff] using hok

/-- C3 witness: the two-node sample graph validates, and its `source`
node indeed has no inbound and one outbound edge. -/
theorem c3_cardinality_invariant_witness :
    validationErrors defaultSettings sampleGraph = [] ∧
    ((mkNode "n1" "w1" .source [] ["n2"]).node_type = .source →
      (mkNode "n1" "w1" .source [] ["n2"]).input_connections = [] ∧
      1 ≤ (mkNode "n1" "w1" .source [] ["n2"]).output_connections.length) :=
  ⟨by decide,
   (c3_cardinality_invariant defaultSettings sampleGraph (by decide)
     (mkNode "n1" "w1" .source [] ["n2"]) (by decide)).1⟩

/-- C4: with the configured ceiling at its default of 100, activating a
draft workflow whose graph has 101 nodes fails — the validator reports
`TooManyNodesError`, activation returns the violation list, and the
workflow row (hence its `draft` status) is unchanged. -/
theorem c4_node_ceiling (w : Workflow) (ns : List WorkflowNode) (s : Settings)
    (hmax : s.MAX_WORKFLOW_NODES = 100) (hlen : ns.length = 101)
    (hdraft : w.status = .draft) :
    defaultSettings.MAX_WORKFLOW_NODES = 100 ∧
    ValidationError.TooManyNodesError ∈ validationErrors s ns ∧
    activate w ns s = (some (validationErrors s ns), w) ∧
    ((activate w ns s).2).status = .draft := by
  have hcount : ¬ (ns.length ≤ s.MAX_WORKFLOW_NODES) := by
    rw [hmax, hlen]; omega
  have hmem : ValidationError.TooManyNodesError ∈ validationErrors s ns := by
    simp [validationErrors, hcount]
  have hne : validationErrors s ns ≠ [] := by
    intro hh
    rw [hh] at hmem
    exact absurd hmem (List.not_mem_nil _)
  have hact : activate w ns s = (some (validationErrors s ns), w) := by
    simp [activate, hne]
  exact ⟨rfl, hmem, hact, by rw [hact, hdraft]⟩

/-- C4 witness: a concrete draft workflow with 101 action nodes fails
activation under the default settings with `TooManyNodesError`, staying
`draft`. -/
theorem c4_node_ceiling_witness :
    defaultSettings.MAX_WORKFLOW_NODES = 100 ∧
    ValidationError.TooManyNodesError ∈
      validationErrors defaultSettings (List.replicate 101 (mkNode "a" "w1" .action [] [])) ∧
    activate (mkWorkflow "w1" "alpha" "u1" "cfg1")
        (List.replicate 101 (mkNode "a" "w1" .action [] [])) defaultSettings =
      (some (validationErrors defaultSettings
        (List.replicate 101 (mkNode "a" "w1" .action [] []))),
       mkWorkflow "w1" "alpha" "u1" "cfg1") ∧
    ((activate (mkWorkflow "w1" "alpha" "u1" "cfg1")
        (List.replicate 101 (mkNode "a" "w1" .action [] [])) defaultSettings).2).status =
      .draft :=
  c4_node_ceiling (mkWorkflow "w1" "alpha" "u1" "cfg1")
    (List.replicate 101 (mkNode "a" "w1" .action [] [])) defaultSettings
    rfl (by simp) rfl

/-- Bridging: `List.contains` on strings is membership. -/
theorem contains_iff_mem {l : List String} {a : String} :
    l.contains a = true ↔ a ∈ l :=
  List.elem_iff

/-- Unfolded characterisation of the edge relation. -/
theorem edgeRel_iff {ns : List WorkflowNode} {u v : String} :
    edgeRel ns u v ↔
      v ∈ nodeIds ns ∧ ∃ n ∈ ns, n.id = u ∧ v ∈ n.output_connections := by
  rw [edgeRel, hasEdgeB, Bool.and_eq_true, List.any_eq_true]
  refine and_congr contains_iff_mem ?_
  refine exists_congr fun n => and_congr Iff.rfl ?_
  rw [Bool.and_eq_true, beq_iff_eq]
  exact and_congr Iff.rfl contains_iff_mem

/-- An edge target is a node id of the graph. -/
theorem edge_tgt_mem {ns : List WorkflowNode} {u v : String}
    (h : edgeRel ns u v) : v ∈ nodeIds ns :=
  (edgeRel_iff.mp h).1

/-- An edge source is a node id of the graph. -/
theorem edge_src_mem {ns : List WorkflowNode} {u v : String}
    (h : edgeRel ns u v) : u ∈ nodeIds ns := by
  obtain ⟨-, n, hn, hid, -⟩ := edgeRel_iff.mp h
  exact hid ▸ List.mem_map_of_mem (fun n => n.id) hn

/-- In a topological order, indices increase along every nonempty
path. -/
theorem indexOf_lt_of_transGen {ns : List WorkflowNode} {ord : List String}
    (hord : ∀ u v, edgeRel ns u v → ord.indexOf u < ord.indexOf v)
    {u v : String} (h : Relation.TransGen (edgeRel ns) u v) :
    ord.indexOf u < ord.indexOf v := by
  induction h with
  | single he => exact hord _ _ he
  | tail _ hbc ih => exact ih.trans (hord _ _ hbc)

/-- A graph admitting a topological order is acyclic. -/
theorem acyclic_of_topo {ns : List WorkflowNode} {ord : List String}
    (h : IsTopoOrder ns ord) : Acyclic ns := fun _ hu =>
  lt_irrefl _ (indexOf_lt_of_transGen h.2.2 hu)

/-- A nonempty id set in which every member has an inbound edge from a
member contains a directed cycle (pigeonhole on iterated predecessor
choice). -/
theorem exists_cycle_of_all_supported (ns : List WorkflowNode)
    (S : List String) (hne : S ≠ [])
    (hsup : ∀ v ∈ S, ∃ u ∈ S, edgeRel ns u v) :
    ∃ w, Relation.TransGen (edgeRel ns) w w := by
  classical
  set g : String → String := fun v =>
    if h : ∃ u, u ∈ S ∧ edgeRel ns u v then h.choose else v with hg
  have hgS : ∀ v ∈ S, g v ∈ S ∧ edgeRel ns (g v) v := by
    intro v hv
    obtain ⟨u, huS, hu⟩ := hsup v hv
    have hex : ∃ u, u ∈ S ∧ edgeRel ns u v := ⟨u, huS, hu⟩
    rw [hg]
    simp only [dif_pos hex]
    exact ⟨hex.choose_spec.1, hex.choose_spec.2⟩
  obtain ⟨v0, hv0⟩ := List.exists_mem_of_ne_nil S hne
  set seq : Nat → String := fun k => g^[k] v0 with hseqdef
  have hseqS : ∀ k, seq k ∈ S := by
    intro k
    induction k with
    | zero => simpa [hseqdef] using hv0
    | succ k ihk =>
      have : seq (k + 1) = g (seq k) := by
        rw [hseqdef]
        exact Function.iterate_succ_apply' g k v0
      rw [this]
      exact (hgS _ ihk).1
  have hstep : ∀ k, edgeRel ns (seq (k + 1)) (seq k) := by
    intro k
    have : seq (k + 1) = g (seq k) := by
      rw [hseqdef]
      exact Function.iterate_succ_apply' g k v0
    rw [this]
    exact (hgS _ (hseqS k)).2
  have hchain : ∀ d k, Relation.TransGen (edgeRel ns) (seq (k + d + 1)) (seq k) := by
    intro d
    induction d with
    | zero => exact fun k => Relation.TransGen.single (hstep k)
    | succ d ihd =>
      intro k
      exact Relation.TransGen.head (hstep (k + d + 1)) (ihd k)
  have hcard : S.toFinset.card < (Finset.range (S.length + 1)).card := by
    rw [Finset.card_range]
    exact Nat.lt_succ_of_le (List.toFinset_card_le S)
  have hmaps : ∀ k ∈ Finset.range (S.length + 1), seq k ∈ S.toFinset :=
    fun k _ => List.mem_toFinset.mpr (hseqS k)
  obtain ⟨i, -, j, -, hij, heq⟩ :=
    Finset.exists_ne_map_eq_of_card_lt_of_maps_to hcard hmaps
  rcases hij.lt_or_lt with hlt | hlt
  · refine ⟨seq j, ?_⟩
    have hc := hchain (j - i - 1) i
    rw [show i + (j - i - 1) + 1 = j from by omega] at hc
    rwa [heq] at hc
  · refine ⟨seq i, ?_⟩
    have hc := hchain (i - j - 1) j
    rw [show j + (i - j - 1) + 1 = i from by omega] at hc
    rwa [heq.symm] at hc

/-- An acyclic nonempty graph has a node with no inbound edge. -/
theorem exists_no_incoming (ns : List WorkflowNode) (hAc : Acyclic ns)
    (hne : nodeIds ns ≠ []) :
    ∃ v ∈ nodeIds ns, ∀ u, ¬ edgeRel ns u v := by
  by_contra hcon
  push_neg at hcon
  have hsup : ∀ v ∈ nodeIds ns, ∃ u ∈ nodeIds ns, edgeRel ns u v := by
    intro v hv
    obtain ⟨u, hu⟩ := hcon v hv
    exact ⟨u, edge_src_mem hu, hu⟩
  obtain ⟨w, hw⟩ := exists_cycle_of_all_supported ns (nodeIds ns) hne hsup
  exact hAc w hw

/-- Node ids of the graph with all nodes of id `v` removed. -/
theorem nodeIds_filter_ne (ns : List WorkflowNode) (v x : String) :
    x ∈ nodeIds (ns.filter (fun n => n.id != v)) ↔
      x ∈ nodeIds ns ∧ x ≠ v := by
  rw [nodeIds, List.mem_map]
  constructor
  · rintro ⟨n, hn, rfl⟩
    rw [List.mem_filter, bne_iff_ne] at hn
    exact ⟨List.mem_map_of_mem _ hn.1, hn.2⟩
  · rintro ⟨hx, hne⟩
    rw [nodeIds, List.mem_map] at hx
    obtain ⟨n, hn, rfl⟩ := hx
    exact ⟨n, List.mem_filter.mpr ⟨hn, bne_iff_ne.mpr hne⟩, rfl⟩

/-- Edges of a filtered graph are edges of the whole graph. -/
theorem edgeRel_filter_imp {ns : List WorkflowNode} {p : WorkflowNode → Bool}
    {u v : String} (h : edgeRel (ns.filter p) u v) : edgeRel ns u v := by
  rw [edgeRel_iff] at h ⊢
  obtain ⟨hv, n, hn, hid, hout⟩ := h
  refine ⟨?_, n, List.mem_of_mem_filter hn, hid, hout⟩
  rw [nodeIds, List.mem_map] at hv ⊢
  obtain ⟨m, hm, rfl⟩ := hv
  exact ⟨m, List.mem_of_mem_filter hm, rfl⟩

/-- An edge avoiding a removed id survives the removal. -/
theorem edgeRel_filter_of_ne {ns : List WorkflowNode} {v0 u w : String}
    (hu : u ≠ v0) (hw : w ≠ v0) (h : edgeRel ns u w) :
    edgeRel (ns.filter (fun n => n.id != v0)) u w := by
  rw [edgeRel_iff] at h ⊢
  obtain ⟨hwmem, n, hn, hid, hout⟩ := h
  refine ⟨(nodeIds_filter_ne ns v0 w).mpr ⟨hwmem, hw⟩, n, ?_, hid, hout⟩
  exact List.mem_filter.mpr ⟨hn, bne_iff_ne.mpr (hid ▸ hu)⟩

/-- The empty graph has the empty topological order. -/
theorem isTopoOrder_nil : IsTopoOrder [] [] := by
  refine ⟨List.nodup_nil, by simp [nodeIds], ?_⟩
  intro u v h
  rw [edgeRel_iff] at h
  obtain ⟨-, n, hn, -⟩ := h
  exact absurd hn (List.not_mem_nil n)

/-- Every acyclic graph admits a topological order (induction on node
count, peeling a node with no inbound edge). -/
theorem exists_topo_of_acyclic_aux :
    ∀ (N : Nat) (ns : List WorkflowNode), ns.length ≤ N → Acyclic ns →
      ∃ ord, IsTopoOrder ns ord := by
  intro N
  induction N with
  | zero =>
    intro ns hlen _
    have hnil : ns = [] := List.eq_nil_of_length_eq_zero (Nat.le_zero.mp hlen)
    subst hnil
    exact ⟨[], isTopoOrder_nil⟩
  | succ N ih =>
    intro ns hlen hAc
    by_cases hns : ns = []
    · subst hns
      exact ⟨[], isTopoOrder_nil⟩
    · have hids : nodeIds ns ≠ [] := by
        intro hh
        exact hns (by simpa [nodeIds] using congrArg List.length hh)
      obtain ⟨v, hvmem, hvno⟩ := exists_no_incoming ns hAc hids
      have hvnode : ∃ n ∈ ns, n.id = v := by
        rw [nodeIds, List.mem_map] at hvmem
        exact hvmem
      have hlt : (ns.filter (fun n => n.id != v)).length < ns.length := by
        rw [List.length_filter_lt_length_iff_exists]
        obtain ⟨n, hn, hid⟩ := hvnode
        exact ⟨n, hn, by simp [hid]⟩
      have hAc2 : Acyclic (ns.filter (fun n => n.id != v)) := fun u hu =>
        hAc u (Relation.TransGen.mono (fun a b hab => edgeRel_filter_imp hab) hu)
      obtain ⟨ord2, hnd, hmemiff, hedges⟩ :=
        ih (ns.filter (fun n => n.id != v)) (by omega) hAc2
      refine ⟨v :: ord2, ?_, ?_, ?_⟩
      · refine List.nodup_cons.mpr ⟨?_, hnd⟩
        intro hvin
        exact ((nodeIds_filter_ne ns v v).mp ((hmemiff v).mp hvin)).2 rfl
      · intro x
        rw [List.mem_cons, hmemiff, nodeIds_filter_ne]
        constructor
        · rintro (rfl | ⟨hx, -⟩)
          · exact hvmem
          · exact hx
        · intro hx
          by_cases hxv : x = v
          · exact Or.inl hxv
          · exact Or.inr ⟨hx, hxv⟩
      · intro u w hedge
        by_cases hwv : w = v
        · exact absurd hedge (hwv ▸ hvno u)
        · by_cases huv : u = v
          · subst huv
            rw [List.indexOf_cons_self,
              List.indexOf_cons_ne ord2 (fun hh => hwv hh.symm)]
            exact Nat.succ_pos _
          · have hedge2 := edgeRel_filter_of_ne huv hwv hedge
            have hlt2 := hedges u w hedge2
            rw [List.indexOf_cons_ne ord2 (fun hh => huv hh.symm),
              List.indexOf_cons_ne ord2 (fun hh => hwv hh.symm)]
            exact Nat.succ_lt_succ hlt2

/-- A set whose members all have inbound support inside the set is never
eliminated. -/
theorem subset_elimLoop (ns : List WorkflowNode) (S : List String)
    (hsup : ∀ v ∈ S, ∃ u ∈ S, edgeRel ns u v) :
    ∀ (fuel : Nat) (remaining : List String), S ⊆ remaining →
      S ⊆ elimLoop ns fuel remaining := by
  intro fuel
  induction fuel with
  | zero =>
    intro remaining hsub
    simpa [elimLoop] using hsub
  | succ fuel ihf =>
    intro remaining hsub
    show S ⊆
      (if (elimStep ns remaining).length < remaining.length
        then elimLoop ns fuel (elimStep ns remaining) else remaining)
    by_cases hlt : (elimStep ns remaining).length < remaining.length
    · rw [if_pos hlt]
      refine ihf _ ?_
      intro v hv
      rw [elimStep, List.mem_filter]
      refine ⟨hsub hv, ?_⟩
      rw [hasIncomingFrom, List.any_eq_true]
      obtain ⟨u, huS, hu⟩ := hsup v hv
      exact ⟨u, hsub huS, hu⟩
    · rw [if_neg hlt]
      exact hsub

/-- Every nonempty path supports itself except possibly at its start. -/
theorem transGen_support {ns : List WorkflowNode} {a b : String}
    (h : Relation.TransGen (edgeRel ns) a b) :
    ∃ S : List String, a ∈ S ∧ b ∈ S ∧
      ∀ v ∈ S, (∃ u ∈ S, edgeRel ns u v) ∨ v = a := by
  induction h with
  | @single w hab =>
    refine ⟨[a, w], by simp, by simp, ?_⟩
    intro v hv
    rcases List.mem_cons.mp hv with rfl | hv2
    · exact Or.inr rfl
    · rcases List.mem_cons.mp hv2 with rfl | hv3
      · exact Or.inl ⟨a, by simp, hab⟩
      · exact absurd hv3 (List.not_mem_nil v)
  | @tail w c hab hbc ih =>
    obtain ⟨S, haS, hbS, hS⟩ := ih
    refine ⟨c :: S, List.mem_cons_of_mem _ haS, List.mem_cons_self _ _, ?_⟩
    intro v hv
    rcases List.mem_cons.mp hv with rfl | hvS
    · exact Or.inl ⟨w, List.mem_cons_of_mem _ hbS, hbc⟩
    · rcases hS v hvS with ⟨u, huS, hu⟩ | rfl
      · exact Or.inl ⟨u, List.mem_cons_of_mem _ huS, hu⟩
      · exact Or.inr rfl

/-- Every directed cycle yields a nonempty, fully supported id set. -/
theorem cycle_support {ns : List WorkflowNode} {a : String}
    (h : Relation.TransGen (edgeRel ns) a a) :
    ∃ S : List String, S ≠ [] ∧ ∀ v ∈ S, ∃ u ∈ S, edgeRel ns u v := by
  obtain ⟨b, hab, hba⟩ := Relation.TransGen.tail'_iff.mp h
  rcases Relation.reflTransGen_iff_eq_or_transGen.mp hab with heq | htrans
  · have hloop : edgeRel ns a a := heq ▸ hba
    refine ⟨[a], by simp, ?_⟩
    intro v hv
    rcases List.mem_cons.mp hv with rfl | hv2
    · exact ⟨_, List.mem_cons_self _ _, hloop⟩
    · exact absurd hv2 (List.not_mem_nil v)
  · obtain ⟨S, haS, hbS, hS⟩ := transGen_support htrans
    refine ⟨S, List.ne_nil_of_mem haS, ?_⟩
    intro v hv
    rcases hS v hv with ⟨u, huS, hu⟩ | rfl
    · exact ⟨u, huS, hu⟩
    · exact ⟨b, hbS, hba⟩

/-- Soundness of the executable check: an empty elimination fixpoint
means no directed cycle. -/
theorem acyclic_of_isAcyclicB {ns : List WorkflowNode}
    (h : isAcyclicB ns = true) : Acyclic ns := by
  intro a ha
  obtain ⟨S, hne, hsup⟩ := cycle_support ha
  have hSsub : S ⊆ nodeIds ns := by
    intro v hv
    obtain ⟨u, -, hu⟩ := hsup v hv
    exact edge_tgt_mem hu
  have hkeep := subset_elimLoop ns S hsup (nodeIds ns).length (nodeIds ns) hSsub
  rw [isAcyclicB, List.isEmpty_iff, elimAux] at h
  obtain ⟨v0, hv0⟩ := List.exists_mem_of_ne_nil S hne
  have := hkeep hv0
  rw [h] at this
  exact absurd this (List.not_mem_nil v0)

/-- With fuel at least the remaining length, the elimination loop reaches
a fixpoint of `elimStep`. -/
theorem elimLoop_fixpoint (ns : List WorkflowNode) :
    ∀ (fuel : Nat) (remaining : List String), remaining.length ≤ fuel →
      elimStep ns (elimLoop ns fuel remaining) = elimLoop ns fuel remaining := by
  intro fuel
  induction fuel with
  | zero =>
    intro remaining hlen
    have hnil : remaining = [] := List.eq_nil_of_length_eq_zero (Nat.le_zero.mp hlen)
    subst hnil
    rfl
  | succ fuel ihf =>
    intro remaining hlen
    show elimStep ns
        (if (elimStep ns remaining).length < remaining.length
          then elimLoop ns fuel (elimStep ns remaining) else remaining) =
      (if (elimStep ns remaining).length < remaining.length
        then elimLoop ns fuel (elimStep ns remaining) else remaining)
    by_cases hlt : (elimStep ns remaining).length < remaining.length
    · rw [if_pos hlt]
      exact ihf _ (by omega)
    · rw [if_neg hlt]
      have hall : ¬ ∃ x ∈ remaining, ¬ (hasIncomingFrom ns remaining x = true) := by
        intro hex
        exact hlt (by
          rw [elimStep]
          exact List.length_filter_lt_length_iff_exists.mpr hex)
      push_neg at hall
      rw [elimStep]
      exact List.filter_eq_self.mpr hall

/-- Completeness of the executable check: an acyclic graph eliminates
completely. -/
theorem isAcyclicB_of_acyclic {ns : List WorkflowNode}
    (hAc : Acyclic ns) : isAcyclicB ns = true := by
  rw [isAcyclicB, List.isEmpty_iff, elimAux]
  by_contra hne
  have hfix := elimLoop_fixpoint ns (nodeIds ns).length (nodeIds ns) le_rfl
  have hsup : ∀ v ∈ elimLoop ns (nodeIds ns).length (nodeIds ns),
      ∃ u ∈ elimLoop ns (nodeIds ns).length (nodeIds ns), edgeRel ns u v := by
    intro v hv
    have hv2 : v ∈ elimStep ns (elimLoop ns (nodeIds ns).length (nodeIds ns)) := by
      rw [hfix]
      exact hv
    rw [elimStep, List.mem_filter, hasIncomingFrom, List.any_eq_true] at hv2
    obtain ⟨u, huR, hu⟩ := hv2.2
    exact ⟨u, huR, hu⟩
  obtain ⟨w, hw⟩ :=
    exists_cycle_of_all_supported ns _ hne hsup
  exact hAc w hw

/-- C7: a workflow graph admits a topological order exactly when it is
acyclic; the executable acyclicity check accepts every acyclic graph, and
on any graph with a directed cycle the Validator reports
`CyclicGraphError`. -/
theorem c7_topo_iff_acyclic (ns : List WorkflowNode) (s : Settings) :
    ((∃ ord, IsTopoOrder ns ord) ↔ Acyclic ns) ∧
    (Acyclic ns → isAcyclicB ns = true) ∧
    (¬ Acyclic ns → ValidationError.CyclicGraphError ∈ validationErrors s ns) := by
  refine ⟨⟨fun h => acyclic_of_topo h.choose_spec,
      fun hAc => exists_topo_of_acyclic_aux ns.length ns le_rfl hAc⟩,
    fun hAc => isAcyclicB_of_acyclic hAc, ?_⟩
  intro hnAc
  have hfalse : isAcyclicB ns = false := by
    cases hb : isAcyclicB ns
    · rfl
    · exact absurd (acyclic_of_isAcyclicB hb) hnAc
  simp [validationErrors, hfalse]

/-- C7 witness: the two-node cyclic sample graph is rejected by the
Validator with `CyclicGraphError`. -/
theorem c7_topo_iff_acyclic_witness :
    ValidationError.CyclicGraphError ∈
      validationErrors defaultSettings sampleCycle :=
  (c7_topo_iff_acyclic sampleCycle defaultSettings).2.2
    (fun hAc => hAc "a"
      (Relation.TransGen.head
        (show edgeRel sampleCycle "a" "b" by decide)
        (Relation.TransGen.single
          (show edgeRel sampleCycle "b" "a" by decide))))

end FinProj
